import Mathlib

set_option maxRecDepth 40000

/-!
Verification of the WebSocket server core in `server/server.go` of
mrborghini/simple-go-websockets.

The Go code is shallowly embedded: a byte stream is a `List Nat` (each
element a byte value `< 256`); `io.ReadFull` is modelled by `readFull`;
machine integers are `Nat`, except where Go's signed 64-bit `int`
semantics matter, where we use `Int` with explicit reduction mod `2 ^ 64`
(`goInt64`).
-/

namespace WS

/-- Go `byte(x)`: truncation of an integer to a byte. -/
def toByte (n : Nat) : Nat := n % 256

/-- Model of `io.ReadFull(conn, buf)` with `len(buf) = n` on a stream `s`:
returns the `n` bytes read and the remaining stream, or `none`
(an error) when fewer than `n` bytes are available. -/
def readFull (n : Nat) (s : List Nat) : Option (List Nat × List Nat) :=
  if s.length < n then none else some (s.take n, s.drop n)

/-- The unmask loop of `readFrame` (and the mask loop of the claim's
mask injection): `payload[i] ^= maskKey[i%4]`, carrying the index `i`. -/
def maskXor (maskKey : List Nat) : Nat → List Nat → List Nat
  | _, [] => []
  | i, b :: bs => (b ^^^ maskKey.getD (i % 4) 0) :: maskXor maskKey (i + 1) bs

/-- Go's signed 64-bit interpretation of a bit pattern: the value of an
`int` whose 64-bit two's-complement bit pattern is `n % 2 ^ 64`. -/
def goInt64 (n : Nat) : Int :=
  if n % 2 ^ 64 < 2 ^ 63 then ((n % 2 ^ 64 : Nat) : Int)
  else ((n % 2 ^ 64 : Nat) : Int) - 2 ^ 64

/-- The 64-bit extended-length assembly of `readFrame`:
`int(extLen[0])<<56 | int(extLen[1])<<48 | ... | int(extLen[7])`,
computed in Go in a signed 64-bit `int`. -/
def len64 (ext : List Nat) : Int :=
  goInt64 (ext.getD 0 0 <<< 56 ||| ext.getD 1 0 <<< 48 ||| ext.getD 2 0 <<< 40 |||
    ext.getD 3 0 <<< 32 ||| ext.getD 4 0 <<< 24 ||| ext.getD 5 0 <<< 16 |||
    ext.getD 6 0 <<< 8 ||| ext.getD 7 0)

/-- Outcome of `readFrame`: a decoded payload with the rest of the
stream, a stream error (short read), or a runtime panic
(`make([]byte, n)` with negative `n`). -/
inductive ReadResult where
  | ok (payload : List Nat) (rest : List Nat)
  | err
  | panicked
  deriving DecidableEq, Repr

/-- Embedding of `readFrame` from `server/server.go`: reads the 2-byte header, the
extended length (2 bytes when the base length is 126, 8 bytes when it is
127), then always a 4-byte mask key, then `payloadLen` payload bytes,
and unmasks the payload unconditionally.  `payloadLen` is a signed Go
`int`; `make([]byte, payloadLen)` panics when it is negative. -/
def readFrame (s : List Nat) : ReadResult :=
  match readFull 2 s with
  | none => .err
  | some (header, s1) =>
    let baseLen : Nat := header.getD 1 0 &&& 0x7F
    let lenStep : Option (Int × List Nat) :=
      if baseLen = 126 then
        match readFull 2 s1 with
        | none => none
        | some (extLen, s2) =>
          some (((extLen.getD 0 0 <<< 8 ||| extLen.getD 1 0 : Nat) : Int), s2)
      else if baseLen = 127 then
        match readFull 8 s1 with
        | none => none
        | some (extLen, s2) => some (len64 extLen, s2)
      else some ((baseLen : Int), s1)
    match lenStep with
    | none => .err
    | some (payloadLen, s2) =>
      match readFull 4 s2 with
      | none => .err
      | some (maskKey, s3) =>
        if payloadLen < 0 then .panicked
        else
          match readFull payloadLen.toNat s3 with
          | none => .err
          | some (payload, s4) => .ok (maskXor maskKey 0 payload) s4

/-- Embedding of `writeFrame` from `server/server.go`: the bytes written for a payload
`message` — a 2/4/10-byte header (opcode byte `0x81`, then the
length-tier-dependent length field) followed by the raw payload. -/
def writeFrame (message : List Nat) : List Nat :=
  let payloadLen := message.length
  let header : List Nat :=
    if payloadLen ≤ 125 then
      [0x81, toByte payloadLen]
    else if payloadLen ≤ 65535 then
      [0x81, 126, toByte (payloadLen >>> 8), toByte (payloadLen &&& 0xFF)]
    else
      [0x81, 127,
        toByte (payloadLen >>> 56), toByte (payloadLen >>> 48),
        toByte (payloadLen >>> 40), toByte (payloadLen >>> 32),
        toByte (payloadLen >>> 24), toByte (payloadLen >>> 16),
        toByte (payloadLen >>> 8), toByte (payloadLen &&& 0xFF)]
  header ++ message

/-- Mask injection as described in the spec's round-trip property: set
the MASK bit (bit 7 of header byte 1), insert the 4-byte key after the
length fields, and XOR-mask the payload with the key. -/
def injectMask (key frame : List Nat) : List Nat :=
  match frame with
  | b0 :: b1 :: rest =>
    let extN : Nat := if b1 &&& 0x7F = 126 then 2 else if b1 &&& 0x7F = 127 then 8 else 0
    b0 :: (b1 ||| 0x80) :: (rest.take extN ++ key ++ maskXor key 0 (rest.drop extN))
  | frame => frame

/-! ### Connection lifecycle (`handleWebSocket`, `UpgradeToWebSocket`) -/

/-- Consumer callbacks of the `WSHandler` interface, in dispatch order. -/
inductive Event where
  | connect
  | message (payload : List Nat)
  | error
  | close
  deriving DecidableEq, Repr

/-- The read loop of `handleWebSocket`: repeatedly `readFrame`; on
success dispatch `OnMessage` and continue, on a read error dispatch
`OnError` once and stop.  A panic inside `readFrame` aborts the loop
with no `OnError` (the deferred calls still run during unwinding).  The
loop consumes at least one byte per iteration, so fuel `s.length + 1`
is never exhausted. -/
def readLoop (fuel : Nat) (s : List Nat) : List Event :=
  match fuel with
  | 0 => []
  | fuel + 1 =>
    match readFrame s with
    | .ok p rest => .message p :: readLoop fuel rest
    | .err => [.error]
    | .panicked => []

/-- The callback sequence of `handleWebSocket conn handler` when the
connection delivers the byte stream `s` and then hits end of stream:
`OnConnect` at entry, then the read-loop callbacks, then the deferred
`OnClose` (which runs before the deferred `conn.Close()`). -/
def handleWebSocketEvents (s : List Nat) : List Event :=
  .connect :: (readLoop (s.length + 1) s ++ [.close])

/-- The full callback sequence for one successfully upgraded connection:
`UpgradeToWebSocket` invokes `handler.OnConnect(wsConn)` itself and then
spawns `handleWebSocket`, which invokes `OnConnect` again before its
read loop. -/
def connectionTrace (s : List Nat) : List Event :=
  .connect :: handleWebSocketEvents s

/-! ### Keepalive (`pingLoop`) -/

/-- The ping control frame written by `pingLoop` on every tick:
`[]byte{0x89, 0x00}` — `0x89` is PING with FIN set, zero payload. -/
def pingFrame : List Nat := [0x89, 0x00]

/-- The interval of `time.NewTicker(15 * time.Second)`, in seconds. -/
def pingIntervalSeconds : Nat := 15

/-- Embedding of `pingLoop` over the ticks that fire before `done`
closes: on each tick the ping frame is written; the result of
`conn.Write` is discarded (`writeResults` records each write's success,
unused by the code), and the function has no access to the handler, so
it fires no callback.  Returns the per-tick writes and the (empty)
callback list. -/
def pingLoop (writeResults : List Bool) : List (List Nat) × List Event :=
  match writeResults with
  | [] => ([], [])
  | _ :: rest => (pingFrame :: (pingLoop rest).1, (pingLoop rest).2)

/-! ### Handshake (`UpgradeToWebSocket`): accept key and validation -/

/-- Left rotation of a 32-bit word. -/
def rotl32 (n x : Nat) : Nat := (x <<< n ||| x >>> (32 - n)) % 2 ^ 32

/-- The SHA-1 round function. -/
def sha1F (t b c d : Nat) : Nat :=
  if t < 20 then (b &&& c) ||| ((b ^^^ 0xFFFFFFFF) &&& d)
  else if t < 40 then b ^^^ c ^^^ d
  else if t < 60 then (b &&& c) ||| (b &&& d) ||| (c &&& d)
  else b ^^^ c ^^^ d

/-- The SHA-1 round constants. -/
def sha1K (t : Nat) : Nat :=
  if t < 20 then 0x5A827999 else if t < 40 then 0x6ED9EBA1
  else if t < 60 then 0x8F1BBCDC else 0xCA62C1D6

/-- Big-endian 4-byte encoding of a 32-bit word. -/
def be4 (n : Nat) : List Nat :=
  [n / 2 ^ 24 % 256, n / 2 ^ 16 % 256, n / 2 ^ 8 % 256, n % 256]

/-- Big-endian 8-byte encoding of a 64-bit value. -/
def be8 (n : Nat) : List Nat :=
  [n / 2 ^ 56 % 256, n / 2 ^ 48 % 256, n / 2 ^ 40 % 256, n / 2 ^ 32 % 256,
   n / 2 ^ 24 % 256, n / 2 ^ 16 % 256, n / 2 ^ 8 % 256, n % 256]

/-- SHA-1 padding: append `0x80`, zeros to 56 mod 64, then the 8-byte
big-endian bit length. -/
def sha1Pad (msg : List Nat) : List Nat :=
  msg ++ 0x80 :: (List.replicate ((119 - msg.length % 64) % 64) 0 ++ be8 (8 * msg.length))

/-- Group bytes into big-endian 32-bit words. -/
def words32 : List Nat → List Nat
  | b0 :: b1 :: b2 :: b3 :: rest =>
    (b0 * 2 ^ 24 + b1 * 2 ^ 16 + b2 * 2 ^ 8 + b3) :: words32 rest
  | _ => []

/-- Extend the 16 message words by `t` scheduled words:
`w[i] = rotl1 (w[i-3] ^ w[i-8] ^ w[i-14] ^ w[i-16])`. -/
def sha1Schedule (w : List Nat) : Nat → List Nat
  | 0 => w
  | t + 1 =>
    let w' := sha1Schedule w t
    let n := w'.length
    w' ++ [rotl32 1 (w'.getD (n - 3) 0 ^^^ w'.getD (n - 8) 0 ^^^
      w'.getD (n - 14) 0 ^^^ w'.getD (n - 16) 0)]

/-- One SHA-1 compression round. -/
def sha1Step (w : List Nat) (st : Nat × Nat × Nat × Nat × Nat) (t : Nat) :
    Nat × Nat × Nat × Nat × Nat :=
  let temp := (rotl32 5 st.1 + sha1F t st.2.1 st.2.2.1 st.2.2.2.1 + st.2.2.2.2 +
    sha1K t + w.getD t 0) % 2 ^ 32
  (temp, st.1, rotl32 30 st.2.1, st.2.2.1, st.2.2.2.1)

/-- Process one 64-byte block: 80 rounds, then add into the chaining
state mod `2 ^ 32`. -/
def sha1Block (h : Nat × Nat × Nat × Nat × Nat) (block : List Nat) :
    Nat × Nat × Nat × Nat × Nat :=
  let w := sha1Schedule (words32 block) 64
  let r := (List.range 80).foldl (sha1Step w) h
  ((h.1 + r.1) % 2 ^ 32, (h.2.1 + r.2.1) % 2 ^ 32, (h.2.2.1 + r.2.2.1) % 2 ^ 32,
   (h.2.2.2.1 + r.2.2.2.1) % 2 ^ 32, (h.2.2.2.2 + r.2.2.2.2) % 2 ^ 32)

/-- Split a byte list into 64-byte chunks (`fuel ≥ list length`). -/
def chunks64 : Nat → List Nat → List (List Nat)
  | 0, _ => []
  | _ + 1, [] => []
  | fuel + 1, s => s.take 64 :: chunks64 fuel (s.drop 64)

/-- SHA-1 digest (20 bytes) of a byte list — `sha1.Sum` in the source. -/
def sha1 (msg : List Nat) : List Nat :=
  let padded := sha1Pad msg
  let hs := (chunks64 padded.length padded).foldl sha1Block
    (0x67452301, 0xEFCDAB89, 0x98BADCFE, 0x10325476, 0xC3D2E1F0)
  be4 hs.1 ++ be4 hs.2.1 ++ be4 hs.2.2.1 ++ be4 hs.2.2.2.1 ++ be4 hs.2.2.2.2

/-- Standard base64 alphabet lookup. -/
def b64Char (n : Nat) : Char :=
  "ABCDEFGHIJKLMNOPQRSTUVWXYZabcdefghijklmnopqrstuvwxyz0123456789+/".toList.getD n 'A'

/-- Standard base64 encoding with `=` padding
(`base64.StdEncoding.EncodeToString` in the source). -/
def base64Encode : List Nat → List Char
  | b0 :: b1 :: b2 :: rest =>
    b64Char (b0 / 4) :: b64Char (b0 % 4 * 16 + b1 / 16) ::
    b64Char (b1 % 16 * 4 + b2 / 64) :: b64Char (b2 % 64) :: base64Encode rest
  | [b0, b1] =>
    [b64Char (b0 / 4), b64Char (b0 % 4 * 16 + b1 / 16), b64Char (b1 % 16 * 4), '=']
  | [b0] => [b64Char (b0 / 4), b64Char (b0 % 4 * 16), '=', '=']
  | [] => []

/-- The WebSocket magic GUID from the source. -/
def wsGUID : String := "258EAFA5-E914-47DA-95CA-C5AB0DC85B11"

/-- Go `[]byte(s)`: the bytes of a string.  All handshake tokens are
ASCII, where UTF-8 bytes coincide with the character codes. -/
def strBytes (s : String) : List Nat := s.toList.map Char.toNat

/-- The accept token computed by `UpgradeToWebSocket`:
`base64.StdEncoding.EncodeToString(sha1.Sum([]byte(key + wsGUID)))`. -/
def computeAcceptKey (key : String) : String :=
  String.mk (base64Encode (sha1 (strBytes (key ++ wsGUID))))

/-- ASCII lower-casing of one character (`strings.ToLower` restricted to
the ASCII header values used here). -/
def lowerChar (c : Char) : Char :=
  if 'A' ≤ c ∧ c ≤ 'Z' then Char.ofNat (c.toNat + 32) else c

/-- ASCII `strings.ToLower` on a character list. -/
def lowerStr (s : List Char) : List Char := s.map lowerChar

/-- Whether `p` occurs at the start of `s`. -/
def startsWithList : List Char → List Char → Bool
  | _, [] => true
  | [], _ => false
  | c :: s, d :: p => c == d && startsWithList s p

/-- Go `strings.Contains s p`: `p` occurs as a substring of `s`. -/
def containsSubstr (s p : List Char) : Bool :=
  match s with
  | [] => startsWithList [] p
  | c :: s' => startsWithList (c :: s') p || containsSubstr s' p

/-- The header values read by `UpgradeToWebSocket` (`r.Header.Get`
returns the empty string for a missing header). -/
structure Request where
  upgrade : String
  connection : String
  secWebSocketKey : String

/-- The HTTP-level response of `UpgradeToWebSocket`. -/
inductive HResponse where
  | rejected (status : Nat) (msg : String)
  | aborted
  | upgraded (acceptKey : String)
  deriving DecidableEq, Repr

/-- What `UpgradeToWebSocket` did: its response, whether it hijacked the
stream, whether it closed the stream itself, and the consumer callbacks
it fired (on success `handleWebSocket` is spawned afterwards and fires
more — see `connectionTrace`). -/
structure UpgradeOutcome where
  response : HResponse
  hijacked : Bool
  streamClosed : Bool
  events : List Event
  deriving DecidableEq, Repr

/-- Embedding of `UpgradeToWebSocket`: validates the `Upgrade`,
`Connection` and `Sec-WebSocket-Key` headers, hijacks the stream, writes
the 101 response, fires `OnConnect` and spawns `handleWebSocket`.
`hijackOk` is whether `Hijack()` succeeds, `writeOk` whether the 101
response write succeeds. -/
def upgradeToWebSocket (r : Request) (hijackOk writeOk : Bool) : UpgradeOutcome :=
  if lowerStr r.upgrade.toList ≠ "websocket".toList ∨
      containsSubstr (lowerStr r.connection.toList) "upgrade".toList = false then
    ⟨.rejected 400 "Invalid WebSocket handshake", false, false, []⟩
  else if r.secWebSocketKey = "" then
    ⟨.rejected 400 "Missing Sec-WebSocket-Key", false, false, []⟩
  else if hijackOk = false then
    ⟨.rejected 500 "Hijack failed", false, false, []⟩
  else if writeOk = false then
    ⟨.aborted, true, true, []⟩
  else
    ⟨.upgraded (computeAcceptKey r.secWebSocketKey), true, false, [.connect]⟩

/-! ### Basic lemmas about the stream primitives -/

theorem readFull_append {l t : List Nat} {n : Nat} (h : l.length = n) :
    readFull n (l ++ t) = some (l, t) := by
  unfold readFull
  rw [if_neg (by simp [List.length_append]; omega),
    List.take_left' h, List.drop_left' h]

theorem maskXor_length (key : List Nat) (i : Nat) (p : List Nat) :
    (maskXor key i p).length = p.length := by
  induction p generalizing i with
  | nil => rfl
  | cons b bs ih => simp [maskXor, ih]

theorem maskXor_maskXor (key : List Nat) (i : Nat) (p : List Nat) :
    maskXor key i (maskXor key i p) = p := by
  induction p generalizing i with
  | nil => rfl
  | cons b bs ih => simp [maskXor, ih, Nat.xor_cancel_right]

theorem lor_eq_add {a b k : Nat} (hd : 2 ^ k ∣ a) (hb : b < 2 ^ k) :
    a ||| b = a + b := by
  obtain ⟨c, rfl⟩ := hd
  exact (Nat.mul_add_lt_is_or hb c).symm

theorem byte_shift_lt {e : Nat} (he : e < 256) (j : Nat) :
    e * 2 ^ j < 2 ^ (j + 8) := by
  calc e * 2 ^ j < 256 * 2 ^ j := (Nat.mul_lt_mul_right (Nat.two_pow_pos j)).mpr he
  _ = 2 ^ (j + 8) := by rw [pow_add]; ring

/-! ### Shape lemmas for `readFrame`: one per length tier -/

/-- Base length `< 126`: the base length is the payload length; the 4
bytes after the header are consumed as the mask key whatever the value
of `b1` (in particular whatever its MASK bit), and the payload is
XORed with the key. -/
theorem readFrame_tier1 (b0 b1 : Nat) (key payload rest : List Nat)
    (hbase : b1 &&& 0x7F < 126) (hkey : key.length = 4)
    (hlen : payload.length = b1 &&& 0x7F) :
    readFrame (b0 :: b1 :: (key ++ (payload ++ rest))) =
      .ok (maskXor key 0 payload) rest := by
  have h2 : readFull 2 ([b0, b1] ++ (key ++ (payload ++ rest))) =
      some ([b0, b1], key ++ (payload ++ rest)) := readFull_append rfl
  simp only [List.cons_append, List.nil_append] at h2
  have h4 : readFull 4 (key ++ (payload ++ rest)) = some (key, payload ++ rest) :=
    readFull_append hkey
  have hp : readFull (b1 &&& 0x7F) (payload ++ rest) = some (payload, rest) :=
    readFull_append hlen
  simp only [readFrame, h2, List.getD, List.get?, Option.getD]
  rw [if_neg (by omega), if_neg (by omega)]
  simp only [h4]
  rw [if_neg (by simp)]
  simp only [Int.toNat_natCast, hp]

/-- Base length `= 126`: the next two bytes, assembled as
`e0 <<< 8 ||| e1`, give the payload length. -/
theorem readFrame_tier2 (b0 b1 e0 e1 : Nat) (key payload rest : List Nat)
    (hbase : b1 &&& 0x7F = 126) (hkey : key.length = 4)
    (hlen : payload.length = (e0 <<< 8 ||| e1)) :
    readFrame (b0 :: b1 :: e0 :: e1 :: (key ++ (payload ++ rest))) =
      .ok (maskXor key 0 payload) rest := by
  have h2 : readFull 2 ([b0, b1] ++ (e0 :: e1 :: (key ++ (payload ++ rest)))) =
      some ([b0, b1], e0 :: e1 :: (key ++ (payload ++ rest))) := readFull_append rfl
  simp only [List.cons_append, List.nil_append] at h2
  have he : readFull 2 ([e0, e1] ++ (key ++ (payload ++ rest))) =
      some ([e0, e1], key ++ (payload ++ rest)) := readFull_append rfl
  simp only [List.cons_append, List.nil_append] at he
  have h4 : readFull 4 (key ++ (payload ++ rest)) = some (key, payload ++ rest) :=
    readFull_append hkey
  have hp : readFull (e0 <<< 8 ||| e1) (payload ++ rest) = some (payload, rest) :=
    readFull_append hlen
  simp only [readFrame, h2, List.getD, List.get?, Option.getD]
  rw [if_pos hbase]
  simp only [he, List.getD, List.get?, Option.getD, h4]
  rw [if_neg (by simp)]
  simp only [Int.toNat_natCast, hp]

/-- Base length `= 127` with a value below `2 ^ 63`: the eight extended
bytes, assembled big-endian, give the payload length. -/
theorem readFrame_tier3 (b0 b1 e0 e1 e2 e3 e4 e5 e6 e7 : Nat)
    (key payload rest : List Nat)
    (hbase : b1 &&& 0x7F = 127) (hkey : key.length = 4)
    (hv : (e0 <<< 56 ||| e1 <<< 48 ||| e2 <<< 40 ||| e3 <<< 32 |||
           e4 <<< 24 ||| e5 <<< 16 ||| e6 <<< 8 ||| e7) < 2 ^ 63)
    (hlen : payload.length = (e0 <<< 56 ||| e1 <<< 48 ||| e2 <<< 40 ||| e3 <<< 32 |||
           e4 <<< 24 ||| e5 <<< 16 ||| e6 <<< 8 ||| e7)) :
    readFrame (b0 :: b1 :: e0 :: e1 :: e2 :: e3 :: e4 :: e5 :: e6 :: e7 ::
        (key ++ (payload ++ rest))) =
      .ok (maskXor key 0 payload) rest := by
  set v : Nat := e0 <<< 56 ||| e1 <<< 48 ||| e2 <<< 40 ||| e3 <<< 32 |||
    e4 <<< 24 ||| e5 <<< 16 ||| e6 <<< 8 ||| e7 with hvdef
  have h2 : readFull 2 ([b0, b1] ++ (e0 :: e1 :: e2 :: e3 :: e4 :: e5 :: e6 :: e7 ::
      (key ++ (payload ++ rest)))) =
      some ([b0, b1], e0 :: e1 :: e2 :: e3 :: e4 :: e5 :: e6 :: e7 ::
        (key ++ (payload ++ rest))) := readFull_append rfl
  simp only [List.cons_append, List.nil_append] at h2
  have he : readFull 8 ([e0, e1, e2, e3, e4, e5, e6, e7] ++ (key ++ (payload ++ rest))) =
      some ([e0, e1, e2, e3, e4, e5, e6, e7], key ++ (payload ++ rest)) := readFull_append rfl
  simp only [List.cons_append, List.nil_append] at he
  have h4 : readFull 4 (key ++ (payload ++ rest)) = some (key, payload ++ rest) :=
    readFull_append hkey
  have hp : readFull v (payload ++ rest) = some (payload, rest) :=
    readFull_append hlen
  have hl64 : len64 [e0, e1, e2, e3, e4, e5, e6, e7] = (v : Int) := by
    simp only [len64, List.getD, List.get?, Option.getD, goInt64, ← hvdef]
    rw [Nat.mod_eq_of_lt (by omega), if_pos (by exact_mod_cast hv)]
  simp only [readFrame, h2, List.getD, List.get?, Option.getD]
  rw [if_neg (by omega), if_pos hbase]
  simp only [he, hl64, h4]
  rw [if_neg (by simp)]
  simp only [Int.toNat_natCast, hp]

/-- The shift-or assembly of eight bytes equals the big-endian value. -/
theorem assemble_be8 (e0 e1 e2 e3 e4 e5 e6 e7 : Nat)
    (h1 : e1 < 256) (h2 : e2 < 256) (h3 : e3 < 256) (h4 : e4 < 256)
    (h5 : e5 < 256) (h6 : e6 < 256) (h7 : e7 < 256) :
    (e0 <<< 56 ||| e1 <<< 48 ||| e2 <<< 40 ||| e3 <<< 32 |||
     e4 <<< 24 ||| e5 <<< 16 ||| e6 <<< 8 ||| e7) =
    e0 * 2 ^ 56 + e1 * 2 ^ 48 + e2 * 2 ^ 40 + e3 * 2 ^ 32 +
    e4 * 2 ^ 24 + e5 * 2 ^ 16 + e6 * 2 ^ 8 + e7 := by
  simp only [Nat.shiftLeft_eq]
  have s1 : e0 * 2 ^ 56 ||| e1 * 2 ^ 48 = e0 * 2 ^ 56 + e1 * 2 ^ 48 :=
    @lor_eq_add _ _ 56 ⟨e0, by ring⟩ (by simpa using byte_shift_lt h1 48)
  have s2 : e0 * 2 ^ 56 + e1 * 2 ^ 48 ||| e2 * 2 ^ 40 =
      e0 * 2 ^ 56 + e1 * 2 ^ 48 + e2 * 2 ^ 40 :=
    @lor_eq_add _ _ 48 ⟨e0 * 2 ^ 8 + e1, by ring⟩ (by simpa using byte_shift_lt h2 40)
  have s3 : e0 * 2 ^ 56 + e1 * 2 ^ 48 + e2 * 2 ^ 40 ||| e3 * 2 ^ 32 =
      e0 * 2 ^ 56 + e1 * 2 ^ 48 + e2 * 2 ^ 40 + e3 * 2 ^ 32 :=
    @lor_eq_add _ _ 40 ⟨e0 * 2 ^ 16 + e1 * 2 ^ 8 + e2, by ring⟩
      (by simpa using byte_shift_lt h3 32)
  have s4 : e0 * 2 ^ 56 + e1 * 2 ^ 48 + e2 * 2 ^ 40 + e3 * 2 ^ 32 ||| e4 * 2 ^ 24 =
      e0 * 2 ^ 56 + e1 * 2 ^ 48 + e2 * 2 ^ 40 + e3 * 2 ^ 32 + e4 * 2 ^ 24 :=
    @lor_eq_add _ _ 32 ⟨e0 * 2 ^ 24 + e1 * 2 ^ 16 + e2 * 2 ^ 8 + e3, by ring⟩
      (by simpa using byte_shift_lt h4 24)
  have s5 : e0 * 2 ^ 56 + e1 * 2 ^ 48 + e2 * 2 ^ 40 + e3 * 2 ^ 32 + e4 * 2 ^ 24 |||
      e5 * 2 ^ 16 =
      e0 * 2 ^ 56 + e1 * 2 ^ 48 + e2 * 2 ^ 40 + e3 * 2 ^ 32 + e4 * 2 ^ 24 + e5 * 2 ^ 16 :=
    @lor_eq_add _ _ 24 ⟨e0 * 2 ^ 32 + e1 * 2 ^ 24 + e2 * 2 ^ 16 + e3 * 2 ^ 8 + e4, by ring⟩
      (by simpa using byte_shift_lt h5 16)
  have s6 : e0 * 2 ^ 56 + e1 * 2 ^ 48 + e2 * 2 ^ 40 + e3 * 2 ^ 32 + e4 * 2 ^ 24 +
      e5 * 2 ^ 16 ||| e6 * 2 ^ 8 =
      e0 * 2 ^ 56 + e1 * 2 ^ 48 + e2 * 2 ^ 40 + e3 * 2 ^ 32 + e4 * 2 ^ 24 +
      e5 * 2 ^ 16 + e6 * 2 ^ 8 :=
    @lor_eq_add _ _ 16 ⟨e0 * 2 ^ 40 + e1 * 2 ^ 32 + e2 * 2 ^ 24 + e3 * 2 ^ 16 + e4 * 2 ^ 8 + e5,
      by ring⟩ (by simpa using byte_shift_lt h6 8)
  have s7 : e0 * 2 ^ 56 + e1 * 2 ^ 48 + e2 * 2 ^ 40 + e3 * 2 ^ 32 + e4 * 2 ^ 24 +
      e5 * 2 ^ 16 + e6 * 2 ^ 8 ||| e7 =
      e0 * 2 ^ 56 + e1 * 2 ^ 48 + e2 * 2 ^ 40 + e3 * 2 ^ 32 + e4 * 2 ^ 24 +
      e5 * 2 ^ 16 + e6 * 2 ^ 8 + e7 :=
    @lor_eq_add _ _ 8 ⟨e0 * 2 ^ 48 + e1 * 2 ^ 40 + e2 * 2 ^ 32 + e3 * 2 ^ 24 + e4 * 2 ^ 16 +
      e5 * 2 ^ 8 + e6, by ring⟩ (by omega)
  rw [s1, s2, s3, s4, s5, s6, s7]

/-- Reduction of `x &&& 127` to `x % 128`. -/
theorem and_127 (x : Nat) : x &&& 127 = x % 128 := by
  have h := Nat.and_pow_two_sub_one_eq_mod x 7
  norm_num at h
  exact h

/-- Reduction of `x &&& 255` to `x % 256`. -/
theorem and_255 (x : Nat) : x &&& 255 = x % 256 := by
  have h := Nat.and_pow_two_sub_one_eq_mod x 8
  norm_num at h
  exact h

/-! ### Encode-then-decode round trips, one lemma per length tier -/

theorem roundTrip_small (payload key : List Nat) (hkey : key.length = 4)
    (h : payload.length ≤ 125) :
    readFrame (injectMask key (writeFrame payload)) = .ok payload [] ∧
    (writeFrame payload).length = payload.length + 2 := by
  set L := payload.length with hL
  have hwf : writeFrame payload = 0x81 :: L :: payload := by
    simp only [writeFrame, ← hL]
    rw [if_pos h]
    simp [toByte, Nat.mod_eq_of_lt (show L < 256 by omega)]
  have hLand : L &&& 127 = L := by rw [and_127]; omega
  have hmask : (L ||| 128) &&& 127 = L := by
    rw [Nat.lor_comm, @lor_eq_add _ _ 7 ⟨1, by norm_num⟩ (by omega), and_127]
    omega
  have hinj : injectMask key (writeFrame payload) =
      0x81 :: (L ||| 128) :: (key ++ maskXor key 0 payload) := by
    rw [hwf]
    simp only [injectMask]
    rw [if_neg (by rw [hLand]; omega), if_neg (by rw [hLand]; omega)]
    simp
  have hrd := readFrame_tier1 0x81 (L ||| 128) key (maskXor key 0 payload) []
    (by rw [hmask]; omega) hkey (by rw [maskXor_length, hmask])
  rw [List.append_nil, maskXor_maskXor] at hrd
  constructor
  · rw [hinj]; exact hrd
  · rw [hwf]; simp [hL]

theorem roundTrip_mid (payload key : List Nat) (hkey : key.length = 4)
    (h1 : 126 ≤ payload.length) (h2 : payload.length ≤ 65535) :
    readFrame (injectMask key (writeFrame payload)) = .ok payload [] ∧
    (writeFrame payload).length = payload.length + 4 := by
  set L := payload.length with hL
  have hwf : writeFrame payload = 0x81 :: 126 :: (L / 256) :: (L % 256) :: payload := by
    simp only [writeFrame, ← hL]
    rw [if_neg (by omega), if_pos (by omega)]
    have e0 : toByte (L >>> 8) = L / 256 := by
      rw [toByte, Nat.shiftRight_eq_div_pow]
      norm_num
      omega
    have e1 : toByte (L &&& 0xFF) = L % 256 := by
      rw [toByte, and_255]
      omega
    rw [e0, e1]
    simp
  have hinj : injectMask key (writeFrame payload) =
      0x81 :: (126 ||| 128) :: (L / 256) :: (L % 256) ::
        (key ++ maskXor key 0 payload) := by
    rw [hwf]
    simp only [injectMask]
    simp [show (126 : Nat) &&& 127 = 126 from by decide]
  have hlor : (L / 256) <<< 8 ||| L % 256 = L := by
    rw [@lor_eq_add _ _ 8 ⟨L / 256, by rw [Nat.shiftLeft_eq]; ring⟩ (by omega),
      Nat.shiftLeft_eq]
    omega
  have hrd := readFrame_tier2 0x81 (126 ||| 128) (L / 256) (L % 256) key
    (maskXor key 0 payload) [] (by decide) hkey
    (by rw [maskXor_length, hlor])
  rw [List.append_nil, maskXor_maskXor] at hrd
  constructor
  · rw [hinj]; exact hrd
  · rw [hwf]; simp [hL]

theorem roundTrip_large (payload key : List Nat) (hkey : key.length = 4)
    (h1 : 65535 < payload.length) (h2 : payload.length < 2 ^ 63) :
    readFrame (injectMask key (writeFrame payload)) = .ok payload [] ∧
    (writeFrame payload).length = payload.length + 10 := by
  set L := payload.length with hL
  have hwf : writeFrame payload = 0x81 :: 127 ::
      (L / 2 ^ 56 % 256) :: (L / 2 ^ 48 % 256) :: (L / 2 ^ 40 % 256) ::
      (L / 2 ^ 32 % 256) :: (L / 2 ^ 24 % 256) :: (L / 2 ^ 16 % 256) ::
      (L / 2 ^ 8 % 256) :: (L % 256) :: payload := by
    simp only [writeFrame, ← hL]
    rw [if_neg (by omega), if_neg (by omega)]
    simp only [toByte, Nat.shiftRight_eq_div_pow, and_255]
    norm_num
  have hinj : injectMask key (writeFrame payload) =
      0x81 :: (127 ||| 128) ::
      (L / 2 ^ 56 % 256) :: (L / 2 ^ 48 % 256) :: (L / 2 ^ 40 % 256) ::
      (L / 2 ^ 32 % 256) :: (L / 2 ^ 24 % 256) :: (L / 2 ^ 16 % 256) ::
      (L / 2 ^ 8 % 256) :: (L % 256) ::
        (key ++ maskXor key 0 payload) := by
    rw [hwf]
    simp only [injectMask]
    simp [show (127 : Nat) &&& 127 = 127 from by decide,
      show ¬((127 : Nat) &&& 127 = 126) from by decide]
  have hv : (L / 2 ^ 56 % 256) <<< 56 ||| (L / 2 ^ 48 % 256) <<< 48 |||
      (L / 2 ^ 40 % 256) <<< 40 ||| (L / 2 ^ 32 % 256) <<< 32 |||
      (L / 2 ^ 24 % 256) <<< 24 ||| (L / 2 ^ 16 % 256) <<< 16 |||
      (L / 2 ^ 8 % 256) <<< 8 ||| L % 256 = L := by
    rw [assemble_be8 _ _ _ _ _ _ _ _ (by omega) (by omega) (by omega) (by omega)
      (by omega) (by omega) (by omega)]
    omega
  have hrd := readFrame_tier3 0x81 (127 ||| 128)
    (L / 2 ^ 56 % 256) (L / 2 ^ 48 % 256) (L / 2 ^ 40 % 256) (L / 2 ^ 32 % 256)
    (L / 2 ^ 24 % 256) (L / 2 ^ 16 % 256) (L / 2 ^ 8 % 256) (L % 256) key
    (maskXor key 0 payload) [] (by decide) hkey
    (by rw [hv]; exact h2)
    (by rw [maskXor_length, hv])
  rw [List.append_nil, maskXor_maskXor] at hrd
  constructor
  · rw [hinj]; exact hrd
  · rw [hwf]; simp [hL]

/-- Base length `= 127` with the top bit of the first extended byte set:
the signed 64-bit length is negative and `make([]byte, payloadLen)`
panics. -/
theorem readFrame_tier3_panic (b0 b1 e0 e1 e2 e3 e4 e5 e6 e7 : Nat)
    (key rest : List Nat)
    (hbase : b1 &&& 0x7F = 127) (hkey : key.length = 4)
    (h0 : 128 ≤ e0) (hb0 : e0 < 256) (h1 : e1 < 256) (h2 : e2 < 256)
    (h3 : e3 < 256) (h4 : e4 < 256) (h5 : e5 < 256) (h6 : e6 < 256)
    (h7 : e7 < 256) :
    readFrame (b0 :: b1 :: e0 :: e1 :: e2 :: e3 :: e4 :: e5 :: e6 :: e7 ::
        (key ++ rest)) = .panicked ∧
    len64 [e0, e1, e2, e3, e4, e5, e6, e7] < 0 := by
  have hasm := assemble_be8 e0 e1 e2 e3 e4 e5 e6 e7 h1 h2 h3 h4 h5 h6 h7
  have hlt : e0 * 2 ^ 56 + e1 * 2 ^ 48 + e2 * 2 ^ 40 + e3 * 2 ^ 32 +
      e4 * 2 ^ 24 + e5 * 2 ^ 16 + e6 * 2 ^ 8 + e7 < 2 ^ 64 := by omega
  have hge : 2 ^ 63 ≤ e0 * 2 ^ 56 + e1 * 2 ^ 48 + e2 * 2 ^ 40 + e3 * 2 ^ 32 +
      e4 * 2 ^ 24 + e5 * 2 ^ 16 + e6 * 2 ^ 8 + e7 := by
    have : 2 ^ 63 ≤ e0 * 2 ^ 56 := by
      calc (2 : Nat) ^ 63 = 128 * 2 ^ 56 := by norm_num
      _ ≤ e0 * 2 ^ 56 := Nat.mul_le_mul_right _ h0
    omega
  have hneg : len64 [e0, e1, e2, e3, e4, e5, e6, e7] < 0 := by
    simp only [len64, List.getD, List.get?, Option.getD, goInt64, hasm]
    rw [Nat.mod_eq_of_lt hlt, if_neg (by omega)]
    have : ((e0 * 2 ^ 56 + e1 * 2 ^ 48 + e2 * 2 ^ 40 + e3 * 2 ^ 32 +
        e4 * 2 ^ 24 + e5 * 2 ^ 16 + e6 * 2 ^ 8 + e7 : Nat) : Int) < 2 ^ 64 := by
      exact_mod_cast hlt
    omega
  refine ⟨?_, hneg⟩
  have h2h : readFull 2 ([b0, b1] ++ (e0 :: e1 :: e2 :: e3 :: e4 :: e5 :: e6 :: e7 ::
      (key ++ rest))) =
      some ([b0, b1], e0 :: e1 :: e2 :: e3 :: e4 :: e5 :: e6 :: e7 :: (key ++ rest)) :=
    readFull_append rfl
  simp only [List.cons_append, List.nil_append] at h2h
  have he : readFull 8 ([e0, e1, e2, e3, e4, e5, e6, e7] ++ (key ++ rest)) =
      some ([e0, e1, e2, e3, e4, e5, e6, e7], key ++ rest) := readFull_append rfl
  simp only [List.cons_append, List.nil_append] at he
  have h4h : readFull 4 (key ++ rest) = some (key, rest) := readFull_append hkey
  simp only [readFrame, h2h, List.getD, List.get?, Option.getD]
  rw [if_neg (by omega), if_pos hbase]
  simp only [he, h4h]
  rw [if_pos hneg]

/-! ### The claims -/

/-- C1: for payloads of length 0, 1, 125, 126, 65535, 65536 and 70000,
encoding with `writeFrame` and then decoding with `readFrame` after
injecting a mask (setting the MASK bit, inserting a 4-byte key and
XOR-masking the payload) returns exactly the original payload, and the
encoded header has the size of the length-tier rule: 2 bytes for
`L ≤ 125`, 4 bytes for `126 ≤ L ≤ 65535`, 10 bytes for `L > 65535`. -/
theorem c1_encode_decode_roundTrip (payload key : List Nat) (hkey : key.length = 4) :
    (payload.length = 0 →
      readFrame (injectMask key (writeFrame payload)) = .ok payload [] ∧
      (writeFrame payload).length = payload.length + 2) ∧
    (payload.length = 1 →
      readFrame (injectMask key (writeFrame payload)) = .ok payload [] ∧
      (writeFrame payload).length = payload.length + 2) ∧
    (payload.length = 125 →
      readFrame (injectMask key (writeFrame payload)) = .ok payload [] ∧
      (writeFrame payload).length = payload.length + 2) ∧
    (payload.length = 126 →
      readFrame (injectMask key (writeFrame payload)) = .ok payload [] ∧
      (writeFrame payload).length = payload.length + 4) ∧
    (payload.length = 65535 →
      readFrame (injectMask key (writeFrame payload)) = .ok payload [] ∧
      (writeFrame payload).length = payload.length + 4) ∧
    (payload.length = 65536 →
      readFrame (injectMask key (writeFrame payload)) = .ok payload [] ∧
      (writeFrame payload).length = payload.length + 10) ∧
    (payload.length = 70000 →
      readFrame (injectMask key (writeFrame payload)) = .ok payload [] ∧
      (writeFrame payload).length = payload.length + 10) :=
  ⟨fun h => roundTrip_small payload key hkey (by omega),
   fun h => roundTrip_small payload key hkey (by omega),
   fun h => roundTrip_small payload key hkey (by omega),
   fun h => roundTrip_mid payload key hkey (by omega) (by omega),
   fun h => roundTrip_mid payload key hkey (by omega) (by omega),
   fun h => roundTrip_large payload key hkey (by omega) (by omega),
   fun h => roundTrip_large payload key hkey (by omega) (by omega)⟩

/-- Witness for C1 at the concrete payload `List.replicate 126 7` and
key `[1, 2, 3, 4]`. -/
theorem c1_witness :
    readFrame (injectMask [1, 2, 3, 4] (writeFrame (List.replicate 126 7))) =
      .ok (List.replicate 126 7) [] ∧
    (writeFrame (List.replicate 126 7)).length = 130 := by
  have h := (c1_encode_decode_roundTrip (List.replicate 126 7) [1, 2, 3, 4]
    (by decide)).2.2.2.1 (by simp)
  exact ⟨h.1, by rw [h.2]; simp⟩

/-- C2: `writeFrame` emits header `[0x81, L]` for `L ≤ 125`,
`[0x81, 126, L_hi, L_lo]` (16-bit big-endian) for `126 ≤ L ≤ 65535`, and
`[0x81, 127]` followed by 8 big-endian length bytes for `L > 65535`,
always followed by the raw payload with the MASK bit (bit 7 of header
byte 1) never set and no mask key emitted. -/
theorem c2_writeFrame_header (msg : List Nat) (hL : msg.length < 2 ^ 63) :
    (msg.length ≤ 125 → writeFrame msg = [0x81, msg.length] ++ msg) ∧
    (126 ≤ msg.length → msg.length ≤ 65535 →
      writeFrame msg = [0x81, 126, msg.length / 256, msg.length % 256] ++ msg) ∧
    (65535 < msg.length →
      writeFrame msg = [0x81, 127,
        msg.length / 2 ^ 56 % 256, msg.length / 2 ^ 48 % 256,
        msg.length / 2 ^ 40 % 256, msg.length / 2 ^ 32 % 256,
        msg.length / 2 ^ 24 % 256, msg.length / 2 ^ 16 % 256,
        msg.length / 2 ^ 8 % 256, msg.length % 256] ++ msg) ∧
    (writeFrame msg).getD 1 0 < 128 := by
  refine ⟨?_, ?_, ?_, ?_⟩
  · intro h
    simp only [writeFrame]
    rw [if_pos h]
    simp [toByte, Nat.mod_eq_of_lt (show msg.length < 256 by omega)]
  · intro h1 h2
    simp only [writeFrame]
    rw [if_neg (by omega), if_pos (by omega)]
    have e0 : toByte (msg.length >>> 8) = msg.length / 256 := by
      rw [toByte, Nat.shiftRight_eq_div_pow]
      norm_num
      omega
    have e1 : toByte (msg.length &&& 0xFF) = msg.length % 256 := by
      rw [toByte, and_255]
      omega
    rw [e0, e1]
  · intro h1
    simp only [writeFrame]
    rw [if_neg (by omega), if_neg (by omega)]
    simp only [toByte, Nat.shiftRight_eq_div_pow, and_255]
    norm_num
  · simp only [writeFrame]
    by_cases hA : msg.length ≤ 125
    · rw [if_pos hA]
      simp [toByte]
      omega
    · by_cases hB : msg.length ≤ 65535
      · rw [if_neg hA, if_pos hB]
        simp
      · rw [if_neg hA, if_neg hB]
        simp

/-- Witness for C2 at the concrete payloads `[5, 6, 7]` (tier 1) and
`List.replicate 300 1` (tier 2). -/
theorem c2_witness :
    writeFrame [5, 6, 7] = [0x81, 3] ++ [5, 6, 7] ∧
    writeFrame (List.replicate 300 1) =
      [0x81, 126, 1, 44] ++ List.replicate 300 1 := by
  constructor
  · exact (c2_writeFrame_header [5, 6, 7] (by decide)).1 (by decide)
  · have h := (c2_writeFrame_header (List.replicate 300 1) (by simp)).2.1
      (by simp) (by simp)
    simpa using h

/-- C4 counterexample: for the 8-byte extended length field
`80 00 00 00 00 00 00 00` (big-endian value `2 ^ 63`), the decoder does
not interpret the field as the big-endian 64-bit payload length: the
signed assembly yields `-(2 ^ 63)`, and decoding panics at the payload
allocation instead of proceeding with length `2 ^ 63`. -/
theorem c4_counterexample :
    readFrame [0x81, 0xFF, 128, 0, 0, 0, 0, 0, 0, 0, 0, 0, 0, 0] = .panicked ∧
    len64 [128, 0, 0, 0, 0, 0, 0, 0] = -(2 ^ 63 : Int) ∧
    len64 [128, 0, 0, 0, 0, 0, 0, 0] ≠ (2 ^ 63 : Int) := by
  decide

/-- C4 (amended): base length 126 reads 2 further big-endian bytes and
base length below 126 is itself the length, as claimed; for base length
127 the 8 further bytes are assembled into a signed 64-bit machine
integer, which is the big-endian value when that value is below `2 ^ 63`
but is negative (decoding panics at allocation) when the top bit of the
field is set. -/
theorem c4_lengthTiers :
    (∀ b0 b1 : Nat, ∀ key payload rest : List Nat, b1 &&& 0x7F < 126 →
      key.length = 4 → payload.length = b1 &&& 0x7F →
      readFrame (b0 :: b1 :: (key ++ (payload ++ rest))) =
        .ok (maskXor key 0 payload) rest) ∧
    (∀ b0 b1 e0 e1 : Nat, ∀ key payload rest : List Nat, b1 &&& 0x7F = 126 →
      e1 < 256 → key.length = 4 → payload.length = 256 * e0 + e1 →
      readFrame (b0 :: b1 :: e0 :: e1 :: (key ++ (payload ++ rest))) =
        .ok (maskXor key 0 payload) rest) ∧
    (∀ b0 b1 e0 e1 e2 e3 e4 e5 e6 e7 : Nat, ∀ key payload rest : List Nat,
      b1 &&& 0x7F = 127 → e0 < 128 → e1 < 256 → e2 < 256 → e3 < 256 →
      e4 < 256 → e5 < 256 → e6 < 256 → e7 < 256 → key.length = 4 →
      payload.length = e0 * 2 ^ 56 + e1 * 2 ^ 48 + e2 * 2 ^ 40 + e3 * 2 ^ 32 +
        e4 * 2 ^ 24 + e5 * 2 ^ 16 + e6 * 2 ^ 8 + e7 →
      readFrame (b0 :: b1 :: e0 :: e1 :: e2 :: e3 :: e4 :: e5 :: e6 :: e7 ::
        (key ++ (payload ++ rest))) = .ok (maskXor key 0 payload) rest) ∧
    (∀ b0 b1 e0 e1 e2 e3 e4 e5 e6 e7 : Nat, ∀ key rest : List Nat,
      b1 &&& 0x7F = 127 → 128 ≤ e0 → e0 < 256 → e1 < 256 → e2 < 256 →
      e3 < 256 → e4 < 256 → e5 < 256 → e6 < 256 → e7 < 256 → key.length = 4 →
      readFrame (b0 :: b1 :: e0 :: e1 :: e2 :: e3 :: e4 :: e5 :: e6 :: e7 ::
        (key ++ rest)) = .panicked) := by
  refine ⟨?_, ?_, ?_, ?_⟩
  · exact fun b0 b1 key payload rest hb hk hl =>
      readFrame_tier1 b0 b1 key payload rest hb hk hl
  · intro b0 b1 e0 e1 key payload rest hb he1 hk hl
    refine readFrame_tier2 b0 b1 e0 e1 key payload rest hb hk ?_
    rw [@lor_eq_add _ _ 8 ⟨e0, by rw [Nat.shiftLeft_eq]; ring⟩ (by omega),
      Nat.shiftLeft_eq]
    omega
  · intro b0 b1 e0 e1 e2 e3 e4 e5 e6 e7 key payload rest hb he0 he1 he2 he3
      he4 he5 he6 he7 hk hl
    have hasm := assemble_be8 e0 e1 e2 e3 e4 e5 e6 e7 he1 he2 he3 he4 he5 he6 he7
    refine readFrame_tier3 b0 b1 e0 e1 e2 e3 e4 e5 e6 e7 key payload rest hb hk
      ?_ ?_
    · rw [hasm]; omega
    · rw [hasm]; omega
  · intro b0 b1 e0 e1 e2 e3 e4 e5 e6 e7 key rest hb h0 hb0 he1 he2 he3 he4
      he5 he6 he7 hk
    exact (readFrame_tier3_panic b0 b1 e0 e1 e2 e3 e4 e5 e6 e7 key rest hb hk
      h0 hb0 he1 he2 he3 he4 he5 he6 he7).1

/-- Witness for C4 at a concrete 126-tier frame: extended bytes
`[1, 44]` (length 300), key `[0, 0, 0, 0]`, payload of 300 zero bytes. -/
theorem c4_witness :
    readFrame (0x81 :: 254 :: 1 :: 44 ::
        ([0, 0, 0, 0] ++ (List.replicate 300 0 ++ []))) =
      .ok (maskXor [0, 0, 0, 0] 0 (List.replicate 300 0)) [] :=
  (c4_lengthTiers).2.1 0x81 254 1 44 [0, 0, 0, 0] (List.replicate 300 0) []
    (by decide) (by decide) (by decide) (by simp)

/-- C5: the decoder always consumes a 4-byte mask key after the length
fields, whatever the value of header byte 1 (in particular whatever its
MASK bit), XORs each payload byte at index `i` with `maskKey[i % 4]`,
and hence correctly unmasks a masked frame with a known key. -/
theorem c5_maskKey_always_read (b0 b1 : Nat) (key payload rest : List Nat)
    (hbase : b1 &&& 0x7F < 126) (hkey : key.length = 4) :
    (payload.length = b1 &&& 0x7F →
      readFrame (b0 :: b1 :: (key ++ (payload ++ rest))) =
        .ok (maskXor key 0 payload) rest) ∧
    (∀ original : List Nat, original.length = b1 &&& 0x7F →
      readFrame (b0 :: b1 :: (key ++ (maskXor key 0 original ++ rest))) =
        .ok original rest) := by
  constructor
  · exact fun h => readFrame_tier1 b0 b1 key payload rest hbase hkey h
  · intro original h
    have hh := readFrame_tier1 b0 b1 key (maskXor key 0 original) rest hbase hkey
      (by rw [maskXor_length]; exact h)
    rwa [maskXor_maskXor] at hh

/-- Witness for C5 at a concrete frame with the MASK bit set
(`b1 = 0x82`) and one with it clear (`b1 = 0x02`). -/
theorem c5_witness :
    readFrame (0x81 :: 0x82 :: ([1, 2, 3, 4] ++
        (maskXor [1, 2, 3, 4] 0 [10, 20] ++ []))) = .ok [10, 20] [] ∧
    readFrame (0x81 :: 0x02 :: ([1, 2, 3, 4] ++ ([10, 20] ++ []))) =
      .ok (maskXor [1, 2, 3, 4] 0 [10, 20]) [] := by
  constructor
  · exact (c5_maskKey_always_read 0x81 0x82 [1, 2, 3, 4] [10, 20] []
      (by decide) (by decide)).2 [10, 20] (by decide)
  · exact (c5_maskKey_always_read 0x81 0x02 [1, 2, 3, 4] [10, 20] []
      (by decide) (by decide)).1 (by decide)

/-- C10: in the 127 length tier the extended length is assembled with
signed 64-bit semantics, so any 8-byte field with bit 63 set (first byte
`≥ 128`) yields a negative computed length, and the payload allocation
panics instead of returning a decode error; no upper bound on the
length is checked before the allocation. -/
theorem c10_signed_length_panics (b0 b1 e0 e1 e2 e3 e4 e5 e6 e7 : Nat)
    (key rest : List Nat)
    (hbase : b1 &&& 0x7F = 127) (hkey : key.length = 4)
    (h0 : 128 ≤ e0) (hb0 : e0 < 256) (h1 : e1 < 256) (h2 : e2 < 256)
    (h3 : e3 < 256) (h4 : e4 < 256) (h5 : e5 < 256) (h6 : e6 < 256)
    (h7 : e7 < 256) :
    len64 [e0, e1, e2, e3, e4, e5, e6, e7] < 0 ∧
    readFrame (b0 :: b1 :: e0 :: e1 :: e2 :: e3 :: e4 :: e5 :: e6 :: e7 ::
        (key ++ rest)) = .panicked := by
  have hh := readFrame_tier3_panic b0 b1 e0 e1 e2 e3 e4 e5 e6 e7 key rest
    hbase hkey h0 hb0 h1 h2 h3 h4 h5 h6 h7
  exact ⟨hh.2, hh.1⟩

/-- Witness for C10 at the concrete stream
`[0x81, 0xFF, 0xC8, 1, 2, 3, 4, 5, 6, 7, 9, 9, 9, 9]`. -/
theorem c10_witness :
    len64 [0xC8, 1, 2, 3, 4, 5, 6, 7] < 0 ∧
    readFrame (0x81 :: 0xFF :: 0xC8 :: 1 :: 2 :: 3 :: 4 :: 5 :: 6 :: 7 ::
        ([9, 9, 9, 9] ++ [])) = .panicked :=
  c10_signed_length_panics 0x81 0xFF 0xC8 1 2 3 4 5 6 7 [9, 9, 9, 9] []
    (by decide) (by decide) (by decide) (by decide) (by decide) (by decide)
    (by decide) (by decide) (by decide) (by decide) (by decide)

/-- C3: the accept token is the base64 encoding of the SHA-1 digest of
the client key concatenated with the GUID
`258EAFA5-E914-47DA-95CA-C5AB0DC85B11`, and for the key
`"dGhlIHNhbXBsZSBub25jZQ=="` it equals
`"s3pPLMBiTxaQ9kYGzzhZRbK+xOo="`. -/
theorem c3_acceptToken :
    (∀ key : String, computeAcceptKey key =
      String.mk (base64Encode (sha1 (strBytes key ++ strBytes wsGUID)))) ∧
    computeAcceptKey "dGhlIHNhbXBsZSBub25jZQ==" = "s3pPLMBiTxaQ9kYGzzhZRbK+xOo=" := by
  constructor
  · intro key
    have h : strBytes (key ++ wsGUID) = strBytes key ++ strBytes wsGUID := by
      simp [strBytes, String.toList, String.data_append, List.map_append]
    rw [computeAcceptKey, h]
  · decide

/-- Witness for C3 at the concrete key `"k"`. -/
theorem c3_witness :
    computeAcceptKey "k" =
      String.mk (base64Encode (sha1 (strBytes "k" ++ strBytes wsGUID))) :=
  c3_acceptToken.1 "k"

/-- C6 (code behavior at the failing input): for a connection that
receives one valid masked text frame (`"hi"`) and then end of stream,
the callback sequence is `OnConnect, OnConnect, OnMessage, OnError,
OnClose`: `OnConnect` fires twice — once in `UpgradeToWebSocket` and
once at the top of `handleWebSocket` — not exactly once as the spec
states.  The rest of the claimed order (messages in arrival order, one
`OnError`, `OnClose` last) holds. -/
theorem c6_onConnect_fires_twice :
    connectionTrace [0x81, 0x82, 0, 0, 0, 0, 104, 105] =
      [.connect, .connect, .message [104, 105], .error, .close] ∧
    (connectionTrace [0x81, 0x82, 0, 0, 0, 0, 104, 105]).count .connect = 2 := by
  decide

/-- C7: a request whose `Upgrade` header is not (case-insensitively)
`websocket`, or whose `Connection` header does not contain `upgrade`, or
whose `Sec-WebSocket-Key` is empty, is rejected with status 400, the
stream is not hijacked, and no consumer callback fires. -/
theorem c7_handshake_reject (r : Request) (hijackOk writeOk : Bool)
    (h : lowerStr r.upgrade.toList ≠ "websocket".toList ∨
        containsSubstr (lowerStr r.connection.toList) "upgrade".toList = false ∨
        r.secWebSocketKey = "") :
    ∃ m, upgradeToWebSocket r hijackOk writeOk =
      ⟨.rejected 400 m, false, false, []⟩ := by
  unfold upgradeToWebSocket
  by_cases hA : lowerStr r.upgrade.toList ≠ "websocket".toList ∨
      containsSubstr (lowerStr r.connection.toList) "upgrade".toList = false
  · exact ⟨"Invalid WebSocket handshake", by rw [if_pos hA]⟩
  · have hk : r.secWebSocketKey = "" := by tauto
    exact ⟨"Missing Sec-WebSocket-Key", by rw [if_neg hA, if_pos hk]⟩

/-- Witness for C7 at a request with `Upgrade: http`. -/
theorem c7_witness :
    ∃ m, upgradeToWebSocket ⟨"http", "keep-alive, Upgrade", "abc"⟩ true true =
      ⟨.rejected 400 m, false, false, []⟩ :=
  c7_handshake_reject ⟨"http", "keep-alive, Upgrade", "abc"⟩ true true
    (Or.inl (by decide))

/-- C8: when the write of the 101 response fails, the handshake closes
the hijacked stream and aborts, and no consumer callback (`OnConnect`
and `OnClose` included) fires — `handleWebSocket` is never spawned. -/
theorem c8_write_fail_aborts (r : Request)
    (hup : lowerStr r.upgrade.toList = "websocket".toList)
    (hconn : containsSubstr (lowerStr r.connection.toList) "upgrade".toList = true)
    (hkey : r.secWebSocketKey ≠ "") :
    upgradeToWebSocket r true false = ⟨.aborted, true, true, []⟩ := by
  unfold upgradeToWebSocket
  rw [if_neg (not_or.mpr ⟨not_not_intro hup, by rw [hconn]; simp⟩), if_neg hkey,
    if_neg (by simp), if_pos rfl]

/-- Witness for C8 at a valid request whose 101 write fails. -/
theorem c8_witness :
    upgradeToWebSocket ⟨"WebSocket", "keep-alive, Upgrade", "abc123"⟩ true false =
      ⟨.aborted, true, true, []⟩ :=
  c8_write_fail_aborts ⟨"WebSocket", "keep-alive, Upgrade", "abc123"⟩
    (by decide) (by decide) (by decide)

/-- C9: on every tick `pingLoop` writes exactly the two-byte ping frame
`[0x89, 0x00]`; the interval constant is 15 seconds; the write's result
is discarded so no callback (in particular no `OnError`) ever results
from a failed ping write; and no `writeFrame` output equals the ping
frame — the ping bypasses the text-frame encoder. -/
theorem c9_keepalive_pings (writeResults : List Bool) :
    (pingLoop writeResults).1 = List.replicate writeResults.length pingFrame ∧
    (pingLoop writeResults).2 = [] ∧
    pingIntervalSeconds = 15 ∧
    ∀ msg : List Nat, writeFrame msg ≠ pingFrame := by
  refine ⟨?_, ?_, rfl, ?_⟩
  · induction writeResults with
    | nil => rfl
    | cons b bs ih => simp [pingLoop, ih, List.replicate_succ]
  · induction writeResults with
    | nil => rfl
    | cons b bs ih => simp [pingLoop, ih]
  · intro msg hemsg
    have h0 : (writeFrame msg).getD 0 0 = 0x81 := by
      simp only [writeFrame]
      by_cases hA : msg.length ≤ 125
      · rw [if_pos hA]; rfl
      · by_cases hB : msg.length ≤ 65535
        · rw [if_neg hA, if_pos hB]; rfl
        · rw [if_neg hA, if_neg hB]; rfl
    rw [hemsg] at h0
    simp [pingFrame] at h0

/-- Witness for C9 at two concrete ticks. -/
theorem c9_witness :
    (pingLoop [true, false]).1 = [pingFrame, pingFrame] ∧
    (pingLoop [true, false]).2 = [] :=
  ⟨(c9_keepalive_pings [true, false]).1, (c9_keepalive_pings [true, false]).2.1⟩

end WS
